import Mathlib

/-!
# Verification of the fizz turn-orchestration engine

Shallow embedding of the core of the repository: the JSON tool-call
protocol (`src/agent/tools.rs`), the message model (`src/model.rs`),
the bounded history buffer with its trimming policy and the turn
engine (`src/agent/mod.rs`).

Rust `usize` values here are `Nat` (the quantities involved — history
lengths, hop counts — are tiny, far from overflow); Rust's saturating
subtraction on `usize` is `Nat` subtraction, which saturates at zero.
Rust `str::trim` is modelled by `strTrim` below.
-/

namespace Fizz

/-! ## JSON values and parsing

`serde_json::from_str` first parses the input text as a JSON document
(rejecting trailing non-whitespace) and then deserializes the value.
We model the document syntax with a `Json` inductive and a fuel-indexed
recursive-descent reader over the character list.
-/

instance {ε α : Type} [DecidableEq ε] [DecidableEq α] : DecidableEq (Except ε α)
  | Except.ok a, Except.ok b =>
    if h : a = b then isTrue (by rw [h]) else isFalse (fun hc => h (by injection hc))
  | Except.ok _, Except.error _ => isFalse (fun hc => Except.noConfusion hc)
  | Except.error _, Except.ok _ => isFalse (fun hc => Except.noConfusion hc)
  | Except.error a, Except.error b =>
    if h : a = b then isTrue (by rw [h]) else isFalse (fun hc => h (by injection hc))

/-- Rust's `str::trim`: strip leading and trailing whitespace. (Defined
over the character list so that it evaluates by `rfl`/`decide`; Rust
trims by the Unicode `White_Space` property, of which the inputs this
program builds only ever use the ASCII part.) -/
def strTrim (s : String) : String :=
  String.mk (((s.toList.dropWhile Char.isWhitespace).reverse.dropWhile
    Char.isWhitespace).reverse)

inductive Json where
  | null
  | bool (b : Bool)
  | num (raw : String)
  | str (s : String)
  | arr (elems : List Json)
  | obj (members : List (String × Json))
deriving BEq, Repr

/-- The `\x7b` character. Named so brace characters never appear bare. -/
def lbrace : Char := Char.ofNat 123

/-- The `\x7d` character. -/
def rbrace : Char := Char.ofNat 125

def isJsonWs (c : Char) : Bool :=
  c = ' ' || c = '\t' || c = '\n' || c = '\r'

def skipWs (cs : List Char) : List Char :=
  cs.dropWhile isJsonWs

def hexDigit (c : Char) : Option Nat :=
  if '0' ≤ c ∧ c ≤ '9' then some (c.toNat - '0'.toNat)
  else if 'a' ≤ c ∧ c ≤ 'f' then some (c.toNat - 'a'.toNat + 10)
  else if 'A' ≤ c ∧ c ≤ 'F' then some (c.toNat - 'A'.toNat + 10)
  else none

def parseHex4 : List Char → Option (Nat × List Char)
  | c1 :: c2 :: c3 :: c4 :: rest =>
    match hexDigit c1, hexDigit c2, hexDigit c3, hexDigit c4 with
    | some d1, some d2, some d3, some d4 =>
        some (((d1 * 16 + d2) * 16 + d3) * 16 + d4, rest)
    | _, _, _, _ => none
  | _ => none

/-- Reads JSON string content after the opening quote, decoding escapes
(including `\uXXXX` with surrogate pairs; lone surrogates are rejected,
as serde_json does); returns the decoded characters and the input
remaining after the closing quote. -/
def readStrChars : Nat → List Char → Option (List Char × List Char)
  | 0, _ => none
  | fuel + 1, cs =>
    match cs with
    | [] => none
    | c :: rest =>
      if c = '"' then some ([], rest)
      else if c = '\\' then
        match rest with
        | [] => none
        | e :: rest2 =>
          let cont := fun (d : Char) (r : List Char) =>
            (readStrChars fuel r).map (fun p => (d :: p.1, p.2))
          if e = '"' then cont '"' rest2
          else if e = '\\' then cont '\\' rest2
          else if e = '/' then cont '/' rest2
          else if e = 'b' then cont (Char.ofNat 8) rest2
          else if e = 'f' then cont (Char.ofNat 12) rest2
          else if e = 'n' then cont '\n' rest2
          else if e = 'r' then cont '\r' rest2
          else if e = 't' then cont '\t' rest2
          else if e = 'u' then
            match parseHex4 rest2 with
            | none => none
            | some (n, rest3) =>
              if 0xD800 ≤ n ∧ n ≤ 0xDBFF then
                match rest3 with
                | '\\' :: 'u' :: rest4 =>
                  match parseHex4 rest4 with
                  | some (n2, rest5) =>
                    if 0xDC00 ≤ n2 ∧ n2 ≤ 0xDFFF then
                      cont (Char.ofNat (0x10000 + (n - 0xD800) * 0x400 + (n2 - 0xDC00))) rest5
                    else none
                  | none => none
                | _ => none
              else if 0xDC00 ≤ n ∧ n ≤ 0xDFFF then none
              else cont (Char.ofNat n) rest3
          else none
      else if c.toNat < 0x20 then none
      else
        (readStrChars fuel rest).map (fun p => (c :: p.1, p.2))

def readJsonString : List Char → Option (String × List Char)
  | '"' :: rest =>
    (readStrChars (rest.length + 1) rest).map (fun p => (String.mk p.1, p.2))
  | _ => none

def readIntPart : List Char → Option (List Char)
  | [] => none
  | '0' :: rest => some rest
  | c :: rest => if c.isDigit then some (rest.dropWhile Char.isDigit) else none

def readFracPart : List Char → Option (List Char)
  | '.' :: rest =>
    if (rest.takeWhile Char.isDigit).isEmpty then none
    else some (rest.dropWhile Char.isDigit)
  | cs => some cs

def readExpPart : List Char → Option (List Char)
  | [] => some []
  | c :: rest =>
    if c = 'e' ∨ c = 'E' then
      let rest2 := match rest with
        | s :: r => if s = '+' ∨ s = '-' then r else rest
        | [] => rest
      if (rest2.takeWhile Char.isDigit).isEmpty then none
      else some (rest2.dropWhile Char.isDigit)
    else some (c :: rest)

/-- Consumes one JSON number (`-? int frac? exp?`), returning the rest. -/
def readNumber (cs : List Char) : Option (List Char) :=
  let body := fun (cs1 : List Char) =>
    match readIntPart cs1 with
    | none => none
    | some cs2 =>
      match readFracPart cs2 with
      | none => none
      | some cs3 => readExpPart cs3
  match cs with
  | '-' :: r => body r
  | _ => body cs

mutual

/-- Reads one JSON value. Fuel bounds recursion depth / member count. -/
def readValue : Nat → List Char → Option (Json × List Char)
  | 0, _ => none
  | fuel + 1, cs =>
    match cs with
    | [] => none
    | c :: rest =>
      if c = lbrace then
        match skipWs rest with
        | [] => none
        | c1 :: r1 =>
          if c1 = rbrace then some (Json.obj [], r1)
          else
            match readMembers fuel (c1 :: r1) with
            | some (ms, r2) => some (Json.obj ms, r2)
            | none => none
      else if c = '[' then
        match skipWs rest with
        | [] => none
        | c1 :: r1 =>
          if c1 = ']' then some (Json.arr [], r1)
          else
            match readElements fuel (c1 :: r1) with
            | some (vs, r2) => some (Json.arr vs, r2)
            | none => none
      else if c = '"' then
        (readJsonString cs).map (fun p => (Json.str p.1, p.2))
      else if c = 't' then
        match cs with
        | 't' :: 'r' :: 'u' :: 'e' :: r => some (Json.bool true, r)
        | _ => none
      else if c = 'f' then
        match cs with
        | 'f' :: 'a' :: 'l' :: 's' :: 'e' :: r => some (Json.bool false, r)
        | _ => none
      else if c = 'n' then
        match cs with
        | 'n' :: 'u' :: 'l' :: 'l' :: r => some (Json.null, r)
        | _ => none
      else if c = '-' ∨ c.isDigit then
        match readNumber cs with
        | some r => some (Json.num (String.mk (cs.take (cs.length - r.length))), r)
        | none => none
      else none

/-- Reads `member (ws , ws member)* ws \x7d` starting at a member key. -/
def readMembers : Nat → List Char → Option (List (String × Json) × List Char)
  | 0, _ => none
  | fuel + 1, cs =>
    match readJsonString cs with
    | none => none
    | some (key, r1) =>
      match skipWs r1 with
      | ':' :: r3 =>
        match readValue fuel (skipWs r3) with
        | none => none
        | some (v, r4) =>
          match skipWs r4 with
          | [] => none
          | c :: r6 =>
            if c = ',' then
              match readMembers fuel (skipWs r6) with
              | some (ms, r7) => some ((key, v) :: ms, r7)
              | none => none
            else if c = rbrace then some ([(key, v)], r6)
            else none
      | _ => none

/-- Reads `value (ws , ws value)* ws ]` starting at the first element. -/
def readElements : Nat → List Char → Option (List Json × List Char)
  | 0, _ => none
  | fuel + 1, cs =>
    match readValue fuel cs with
    | none => none
    | some (v, r1) =>
      match skipWs r1 with
      | [] => none
      | c :: r2 =>
        if c = ',' then
          match readElements fuel (skipWs r2) with
          | some (vs, r3) => some (v :: vs, r3)
          | none => none
        else if c = ']' then some ([v], r2)
        else none

end

/-- Parses an entire string as one JSON document: leading/trailing
whitespace allowed, any other trailing input rejected (as
`serde_json::from_str` does). -/
def parseJson (s : String) : Option Json :=
  match readValue (s.length + 1) (skipWs s.toList) with
  | some (j, rest) => if (skipWs rest).isEmpty then some j else none
  | none => none

/-! ## Tool-call protocol (`src/agent/tools.rs`) -/

structure ToolCall where
  name : String
deriving DecidableEq, Repr

/-- Deserialization of `ToolCallEnvelope` / `ToolCallPayload` with serde's
`deny_unknown_fields`: the document must be an object with the single
member `tool_call`, itself an object with the single member `name`
holding a string (extra members, duplicates, missing fields or a
non-string `name` are all rejected). Returns the raw name. -/
def deserializeEnvelope : Json → Option String
  | Json.obj [("tool_call", Json.obj [("name", Json.str s)])] => some s
  | _ => none

/-- `usage_instructions()` from `src/agent/tools.rs`. -/
def usage_instructions : String :=
  "Tools are available.\nAvailable tools:\n- time.now: returns current UTC time and unix time in seconds.\nIf a tool is needed, reply with exactly this JSON object and nothing else:\n\x7b\"tool_call\":\x7b\"name\":\"time.now\"\x7d\x7d\nAfter receiving tool results, respond normally to the user."

/-- `parse_tool_call` from `src/agent/tools.rs`:
`serde_json::from_str(text.trim())` (= parse + envelope deserialization),
then reject an empty trimmed name. -/
def parse_tool_call (text : String) : Option ToolCall :=
  match parseJson (strTrim text) with
  | none => none
  | some j =>
    match deserializeEnvelope j with
    | none => none
    | some rawName =>
      let name := strTrim rawName
      if name = "" then none
      else some { name := name }

/-! ## Message model (`src/model.rs`) and config -/

inductive MessageRole where
  | System
  | User
  | Assistant
deriving DecidableEq, Repr

structure Message where
  role : MessageRole
  content : String
deriving DecidableEq, Repr

def Message.system (content : String) : Message := ⟨MessageRole.System, content⟩

def Message.user (content : String) : Message := ⟨MessageRole.User, content⟩

def Message.assistant (content : String) : Message := ⟨MessageRole.Assistant, content⟩

/-- The slice of `Config` (`src/config.rs`) the agent core reads. -/
structure Config where
  system_prompt : String

/-- `build_system_messages` from `src/agent/mod.rs`. -/
def build_system_messages (cfg : Config) : List Message :=
  (if ¬ (strTrim cfg.system_prompt = "") then [Message.system cfg.system_prompt] else [])
    ++ [Message.system usage_instructions]

/-! ## History buffer (`src/agent/mod.rs`) -/

def MAX_HISTORY_MESSAGES : Nat := 40

def MAX_TOOL_HOPS_PER_TURN : Nat := 2

inductive HistoryMessageKind where
  | System
  | UserInput
  | ToolResult
  | Assistant
deriving DecidableEq, Repr

def is_user_turn_start (kind : HistoryMessageKind) : Bool :=
  kind = HistoryMessageKind.UserInput

/-- `format_tool_result_user_message` from `src/agent/mod.rs`. -/
def format_tool_result_user_message (tool_name tool_result : String) : String :=
  "Tool \x27" ++ tool_name ++ "\x27 result: " ++ tool_result

/-- The locals `keep_tail`/`min_start` of `trim_history_messages`:
`history.len().saturating_sub(MAX_HISTORY_MESSAGES.saturating_sub(system_len)).max(system_len)`
(Nat subtraction is the saturating subtraction). -/
def trimMinStart (len system_len : Nat) : Nat :=
  Nat.max (len - (MAX_HISTORY_MESSAGES - system_len)) system_len

/-- The local `aligned_start` of `trim_history_messages`: the first index
in `min_start..len` whose kind is a user turn start. -/
def trimAlignedStart (len : Nat) (history_kinds : List HistoryMessageKind)
    (system_len : Nat) : Option Nat :=
  (List.range' (trimMinStart len system_len) (len - trimMinStart len system_len)).find?
    (fun idx => is_user_turn_start (history_kinds.getD idx HistoryMessageKind.System))

/-- `trim_history_messages` from `src/agent/mod.rs`. The two parallel
vectors are mutated in place in Rust; here the new pair is returned.
Indexing `history_kinds[idx]` is modelled with `getD` (the Rust code
asserts the vectors have equal length, so `idx` is always in range). -/
def trim_history_messages (history : List Message)
    (history_kinds : List HistoryMessageKind) (system_len : Nat) :
    List Message × List HistoryMessageKind :=
  if history.length ≤ MAX_HISTORY_MESSAGES then (history, history_kinds)
  else
    match trimAlignedStart history.length history_kinds system_len with
    | some start =>
        (history.take system_len ++ history.drop start,
         history_kinds.take system_len ++ history_kinds.drop start)
    | none => (history.take system_len, history_kinds.take system_len)

/-- `TurnState` from `src/agent/mod.rs`. -/
structure TurnState where
  history : List Message
  history_kinds : List HistoryMessageKind
  system_len : Nat
deriving DecidableEq, Repr

def TurnState.from_system_messages (system_messages : List Message) : TurnState :=
  { history := system_messages
    history_kinds := List.replicate system_messages.length HistoryMessageKind.System
    system_len := system_messages.length }

def TurnState.new (cfg : Config) : TurnState :=
  TurnState.from_system_messages (build_system_messages cfg)

def TurnState.reset (st : TurnState) : TurnState :=
  { st with
    history := st.history.take st.system_len
    history_kinds := st.history_kinds.take st.system_len }

/-- `TurnState::trim_history`. -/
def TurnState.trim_history (st : TurnState) : TurnState :=
  let trimmed := trim_history_messages st.history st.history_kinds st.system_len
  { st with history := trimmed.1, history_kinds := trimmed.2 }

/-- `TurnState::push_message`: append to both vectors, then trim. -/
def TurnState.push_message (st : TurnState) (message : Message)
    (kind : HistoryMessageKind) : TurnState :=
  TurnState.trim_history
    { st with
      history := st.history ++ [message]
      history_kinds := st.history_kinds ++ [kind] }

def TurnState.push_user_input (st : TurnState) (content : String) : TurnState :=
  st.push_message (Message.user content) HistoryMessageKind.UserInput

def TurnState.push_tool_result (st : TurnState) (tool_name tool_result : String) :
    TurnState :=
  st.push_message (Message.user (format_tool_result_user_message tool_name tool_result))
    HistoryMessageKind.ToolResult

def TurnState.push_assistant (st : TurnState) (content : String) : TurnState :=
  st.push_message (Message.assistant content) HistoryMessageKind.Assistant

/-! ## Turn engine (`src/agent/mod.rs`)

`run_turn_with` consumes two injected capabilities. The `chat` closure
is `FnMut` (stateful across calls), so it is modelled as a function of
the index of the call (0 for the first) and the message list; likewise
`execute_tool` gets the index of the execution. Failures of either are
`Except.error`. The loop makes at most `MAX_TOOL_HOPS_PER_TURN`
recursive steps; the structural `fuel` argument (always supplied as
`MAX_TOOL_HOPS_PER_TURN + 1`, strictly more than the possible hops)
only makes the recursion structural and is never exhausted. -/

abbrev ChatFn := Nat → List Message → Except String String

abbrev ExecFn := Nat → ToolCall → Except String String

/-- The `match execute_tool(&tool_call)` in `run_turn_with`: a tool
failure is folded into the text `"ERROR: <message>"`. -/
def toolResultText : Except String String → String
  | Except.ok output => output
  | Except.error err => "ERROR: " ++ err

/-- The fixed hop-limit message built in `run_turn_with`. -/
def limitMessage : String :=
  "I stopped after " ++ toString MAX_TOOL_HOPS_PER_TURN ++
    " tool calls in one turn. Please try a simpler request."

/-- Observable outcome of a turn: final state, the returned
`Result<String>`, and how many chat calls / tool executions happened. -/
structure TurnOutcome where
  state : TurnState
  result : Except String String
  chatCalls : Nat
  toolExecs : Nat
deriving DecidableEq, Repr

/-- The `loop` of `run_turn_with`, entered with the response of the
latest chat call; `toolHops` chat calls beyond the first and `toolHops`
tool executions have already happened (so `toolHops + 1` chat calls
in total so far). -/
def runLoop (chat : ChatFn) (execute_tool : ExecFn) :
    Nat → TurnState → Nat → String → TurnOutcome
  | fuel, st, toolHops, response =>
    match parse_tool_call response with
    | none =>
        { state := st.push_assistant response
          result := Except.ok response
          chatCalls := toolHops + 1
          toolExecs := toolHops }
    | some tool_call =>
        if MAX_TOOL_HOPS_PER_TURN ≤ toolHops then
          { state := st.push_assistant limitMessage
            result := Except.ok limitMessage
            chatCalls := toolHops + 1
            toolExecs := toolHops }
        else
          match fuel with
          | 0 =>
              -- unreachable with the fuel `run_turn_with` supplies
              { state := st, result := Except.error "out of fuel"
                chatCalls := toolHops + 1, toolExecs := toolHops }
          | fuel + 1 =>
            let st1 := st.push_assistant response
            let tool_result := toolResultText (execute_tool toolHops tool_call)
            let st2 := st1.push_tool_result tool_call.name tool_result
            match chat (toolHops + 1) st2.history with
            | Except.error e =>
                { state := st2, result := Except.error e
                  chatCalls := toolHops + 2, toolExecs := toolHops + 1 }
            | Except.ok response2 =>
                runLoop chat execute_tool fuel st2 (toolHops + 1) response2

/-- `run_turn_with` from `src/agent/mod.rs`: push the user input, make
the first chat call (propagating its failure), then run the loop. -/
def run_turn_with (st : TurnState) (user_input : String)
    (chat : ChatFn) (execute_tool : ExecFn) : TurnOutcome :=
  let st1 := st.push_user_input user_input
  match chat 0 st1.history with
  | Except.error e =>
      { state := st1, result := Except.error e, chatCalls := 1, toolExecs := 0 }
  | Except.ok response =>
      runLoop chat execute_tool (MAX_TOOL_HOPS_PER_TURN + 1) st1 0 response

/-! ## Operation sequences over the history buffer

The facade exposes three mutations of the buffer: `push_message` (via
the three typed pushes), `reset`, and the internal `trim_history`.
Sequences of them model "any sequence of pushes / trims / resets". -/

inductive HistoryOp where
  | push (message : Message) (kind : HistoryMessageKind)
  | reset
  | trim
deriving DecidableEq, Repr

def applyOp (st : TurnState) : HistoryOp → TurnState
  | HistoryOp.push message kind => st.push_message message kind
  | HistoryOp.reset => st.reset
  | HistoryOp.trim => st.trim_history

def applyOps (st : TurnState) (ops : List HistoryOp) : TurnState :=
  ops.foldl applyOp st

def pushAll (st : TurnState) (ops : List (Message × HistoryMessageKind)) : TurnState :=
  ops.foldl (fun s p => s.push_message p.1 p.2) st

/-- The invariant behind C5: `system_len` is the original count and the
buffer's prefix of that length is the original system messages. The
length bound makes the prefix stable under further appends. -/
def SysInv (sys : List Message) (st : TurnState) : Prop :=
  st.system_len = sys.length ∧ sys.length ≤ st.history.length ∧
    st.history.take sys.length = sys

/-! ## Concrete fixtures for counterexamples and witnesses -/

/-- The two-system-message state the repository's own tests build. -/
def testState : TurnState :=
  TurnState.from_system_messages [Message.system "sys", Message.system "tools"]

def envelopeA : String := "\x7b\"tool_call\":\x7b\"name\":\"tool.a\"\x7d\x7d"

def envelopeB : String := "\x7b\"tool_call\":\x7b\"name\":\"tool.b\"\x7d\x7d"

def envelopeC : String := "\x7b\"tool_call\":\x7b\"name\":\"tool.c\"\x7d\x7d"

/-- A stub model that answers the three chat calls of a turn with three
distinct tool-call envelopes. -/
def threeEnvelopeChat : ChatFn := fun k _ =>
  Except.ok (if k = 0 then envelopeA else if k = 1 then envelopeB else envelopeC)

def okExec : ExecFn := fun _ _ => Except.ok "out"

/-- The spec-side reading of C6's success condition: the entire trimmed
text is one JSON document, namely an object whose single member is
`tool_call`, an object whose single member is `name`, a string that is
non-empty after trimming. -/
def toolCallShape (text : String) : Prop :=
  ∃ name, parseJson (strTrim text) =
      some (Json.obj [("tool_call", Json.obj [("name", Json.str name)])]) ∧
    strTrim name ≠ ""

/-! ## Helper lemmas -/

theorem is_user_turn_start_iff {kind : HistoryMessageKind} :
    is_user_turn_start kind = true ↔ kind = HistoryMessageKind.UserInput := by
  cases kind <;> simp [is_user_turn_start]

theorem range'_find?_some {p : Nat → Bool} : ∀ {n s a : Nat},
    (List.range' s n).find? p = some a ↔
      (s ≤ a ∧ a < s + n ∧ p a = true ∧ ∀ j, s ≤ j → j < a → p j = false) := by
  intro n
  induction n with
  | zero =>
    intro s a
    constructor
    · intro h
      simp at h
    · rintro ⟨h1, h2, -, -⟩
      omega
  | succ n ih =>
    intro s a
    rw [List.range'_succ]
    cases hp : p s with
    | true =>
      rw [List.find?_cons_of_pos _ hp]
      constructor
      · intro h
        injection h with h
        subst h
        exact ⟨Nat.le_refl _, by omega, hp, fun j hj1 hj2 => by omega⟩
      · rintro ⟨h1, -, -, h4⟩
        have ha : a = s := by
          by_contra hne
          have hlt : s < a := Nat.lt_of_le_of_ne h1 (Ne.symm hne)
          have := h4 s (Nat.le_refl s) hlt
          rw [hp] at this
          exact Bool.noConfusion this
        rw [ha]
    | false =>
      rw [List.find?_cons_of_neg _ (by simp [hp])]
      rw [ih]
      constructor
      · rintro ⟨h1, h2, h3, h4⟩
        refine ⟨by omega, by omega, h3, fun j hj1 hj2 => ?_⟩
        rcases Nat.eq_or_lt_of_le hj1 with heq | hlt
        · rw [← heq]
          exact hp
        · exact h4 j (by omega) hj2
      · rintro ⟨h1, h2, h3, h4⟩
        have hne : a ≠ s := by
          intro he
          rw [he, hp] at h3
          exact Bool.noConfusion h3
        exact ⟨by omega, by omega, h3, fun j hj1 hj2 => h4 j (by omega) hj2⟩

theorem range'_find?_none {p : Nat → Bool} {s n : Nat} :
    (List.range' s n).find? p = none ↔ ∀ j, s ≤ j → j < s + n → p j = false := by
  rw [List.find?_eq_none]
  constructor
  · intro h j hj1 hj2
    have := h j (by simp [List.mem_range'_1]; omega)
    simpa using this
  · intro h x hx
    have := h x (by simp [List.mem_range'_1] at hx; omega)
      (by simp [List.mem_range'_1] at hx; omega)
    simp [this]

theorem is_user_turn_start_eq_false {kind : HistoryMessageKind} :
    is_user_turn_start kind = false ↔ kind ≠ HistoryMessageKind.UserInput := by
  cases kind <;> simp [is_user_turn_start]

theorem trimAlignedStart_eq_some {len : Nat} {k : List HistoryMessageKind} {s a : Nat} :
    trimAlignedStart len k s = some a ↔
      (trimMinStart len s ≤ a ∧ a < len ∧
       k.getD a HistoryMessageKind.System = HistoryMessageKind.UserInput ∧
       ∀ j, trimMinStart len s ≤ j → j < a →
         k.getD j HistoryMessageKind.System ≠ HistoryMessageKind.UserInput) := by
  unfold trimAlignedStart
  rw [range'_find?_some]
  constructor
  · rintro ⟨h1, h2, h3, h4⟩
    refine ⟨h1, by omega, is_user_turn_start_iff.mp h3, fun j hj1 hj2 => ?_⟩
    exact is_user_turn_start_eq_false.mp (h4 j hj1 hj2)
  · rintro ⟨h1, h2, h3, h4⟩
    refine ⟨h1, by omega, is_user_turn_start_iff.mpr h3, fun j hj1 hj2 => ?_⟩
    exact is_user_turn_start_eq_false.mpr (h4 j hj1 hj2)

theorem trimAlignedStart_eq_none {len : Nat} {k : List HistoryMessageKind} {s : Nat} :
    trimAlignedStart len k s = none ↔
      ∀ j, trimMinStart len s ≤ j → j < len →
        k.getD j HistoryMessageKind.System ≠ HistoryMessageKind.UserInput := by
  unfold trimAlignedStart
  rw [range'_find?_none]
  constructor
  · intro hf j hj1 hj2
    exact is_user_turn_start_eq_false.mp (hf j hj1 (by omega))
  · intro hf j hj1 hj2
    exact is_user_turn_start_eq_false.mpr (hf j hj1 (by omega))

theorem trim_history_messages_length_le (h : List Message)
    (k : List HistoryMessageKind) (s : Nat) (hs : s ≤ MAX_HISTORY_MESSAGES) :
    (trim_history_messages h k s).1.length ≤ MAX_HISTORY_MESSAGES := by
  by_cases hle : h.length ≤ MAX_HISTORY_MESSAGES
  · simp [trim_history_messages, hle]
  · rw [trim_history_messages, if_neg hle]
    cases hfind : trimAlignedStart h.length k s with
    | none =>
      simp only [List.length_take]
      omega
    | some a =>
      obtain ⟨ha1, ha2, -, -⟩ := trimAlignedStart_eq_some.mp hfind
      have hms1 : h.length - (MAX_HISTORY_MESSAGES - s) ≤ trimMinStart h.length s :=
        Nat.le_max_left _ _
      simp only [List.length_append, List.length_take, List.length_drop]
      omega

theorem push_message_length_le (st : TurnState) (m : Message)
    (kind : HistoryMessageKind) (hs : st.system_len ≤ MAX_HISTORY_MESSAGES) :
    (st.push_message m kind).history.length ≤ MAX_HISTORY_MESSAGES :=
  trim_history_messages_length_le _ _ _ hs

theorem push_message_system_len (st : TurnState) (m : Message)
    (kind : HistoryMessageKind) :
    (st.push_message m kind).system_len = st.system_len := rfl

theorem SysInv.trim {sys : List Message} {st : TurnState} (hinv : SysInv sys st) :
    SysInv sys st.trim_history := by
  obtain ⟨h1, h2, h3⟩ := hinv
  unfold TurnState.trim_history
  by_cases hle : st.history.length ≤ MAX_HISTORY_MESSAGES
  · simp only [trim_history_messages, if_pos hle]
    exact ⟨h1, h2, h3⟩
  · rw [trim_history_messages, if_neg hle]
    cases hfind : trimAlignedStart st.history.length st.history_kinds st.system_len with
    | some a =>
      obtain ⟨ha1, ha2, -, -⟩ := trimAlignedStart_eq_some.mp hfind
      have hsa : st.system_len ≤ a := le_trans (Nat.le_max_right _ _) ha1
      refine ⟨h1, ?_, ?_⟩
      · simp only [List.length_append, List.length_take, List.length_drop]
        omega
      · rw [List.take_append_of_le_length (by simp; omega), List.take_take]
        rw [show min sys.length st.system_len = sys.length by omega]
        exact h3
    | none =>
      refine ⟨h1, ?_, ?_⟩
      · simp only [List.length_take]
        omega
      · rw [List.take_take, show min sys.length st.system_len = sys.length by omega]
        exact h3

theorem SysInv.push {sys : List Message} {st : TurnState} (m : Message)
    (kind : HistoryMessageKind) (hinv : SysInv sys st) :
    SysInv sys (st.push_message m kind) := by
  apply SysInv.trim
  obtain ⟨h1, h2, h3⟩ := hinv
  refine ⟨h1, ?_, ?_⟩
  · simp only [List.length_append, List.length_cons, List.length_nil]
    omega
  · rw [List.take_append_of_le_length h2]
    exact h3

theorem SysInv.reset_op {sys : List Message} {st : TurnState} (hinv : SysInv sys st) :
    SysInv sys st.reset := by
  obtain ⟨h1, h2, h3⟩ := hinv
  refine ⟨h1, ?_, ?_⟩
  · simp only [TurnState.reset, List.length_take]
    omega
  · simp only [TurnState.reset]
    rw [List.take_take, show min sys.length st.system_len = sys.length by omega]
    exact h3

theorem SysInv.ops {sys : List Message} {st : TurnState} (hinv : SysInv sys st)
    (ops : List HistoryOp) : SysInv sys (applyOps st ops) := by
  induction ops generalizing st with
  | nil => exact hinv
  | cons op rest ih =>
    cases op with
    | push m kind => exact ih (hinv.push m kind)
    | reset => exact ih hinv.reset_op
    | trim => exact ih hinv.trim

theorem deserializeEnvelope_eq_some {j : Json} {s : String} :
    deserializeEnvelope j = some s ↔
      j = Json.obj [("tool_call", Json.obj [("name", Json.str s)])] := by
  constructor
  · intro h
    unfold deserializeEnvelope at h
    split at h
    · injection h with h
      rw [← h]
    · exact Option.noConfusion h
  · intro h
    rw [h]
    rfl

theorem parse_tool_call_isSome_iff (text : String) :
    (parse_tool_call text).isSome = true ↔ toolCallShape text := by
  constructor
  · intro h
    cases hp : parseJson (strTrim text) with
    | none =>
      simp only [parse_tool_call, hp, Option.isSome_none] at h
      exact Bool.noConfusion h
    | some j =>
      cases hd : deserializeEnvelope j with
      | none =>
        simp only [parse_tool_call, hp, hd, Option.isSome_none] at h
        exact Bool.noConfusion h
      | some rawName =>
        by_cases hb : strTrim rawName = ""
        · simp only [parse_tool_call, hp, hd, hb, if_pos, Option.isSome_none] at h
          exact Bool.noConfusion h
        · exact ⟨rawName, by rw [hp, deserializeEnvelope_eq_some.mp hd], hb⟩
  · rintro ⟨name, hj, hb⟩
    simp [parse_tool_call, hj, deserializeEnvelope, hb]

/-- One loop iteration with no tool call in the response: push as
Assistant and return the response. -/
theorem runLoop_no_call_step (chat : ChatFn) (exec : ExecFn) (fuel : Nat)
    (st : TurnState) (hops : Nat) (response : String)
    (hp : parse_tool_call response = none) :
    runLoop chat exec fuel st hops response =
      { state := st.push_assistant response
        result := Except.ok response
        chatCalls := hops + 1
        toolExecs := hops } := by
  rw [runLoop]
  simp only [hp]

/-- One loop iteration at the hop limit: push only the fixed limit
message and return it. -/
theorem runLoop_limit_step (chat : ChatFn) (exec : ExecFn) (fuel : Nat)
    (st : TurnState) (hops : Nat) (response : String) (tc : ToolCall)
    (hp : parse_tool_call response = some tc)
    (hh : MAX_TOOL_HOPS_PER_TURN ≤ hops) :
    runLoop chat exec fuel st hops response =
      { state := st.push_assistant limitMessage
        result := Except.ok limitMessage
        chatCalls := hops + 1
        toolExecs := hops } := by
  rw [runLoop]
  simp only [hp]
  rw [if_pos hh]

/-- One loop iteration below the hop limit: push the response as
Assistant, execute the tool (folding a failure into `ERROR:` text),
push the rendered result as a ToolResult, and make the next chat call. -/
theorem runLoop_hop_step (chat : ChatFn) (exec : ExecFn) (fuel : Nat)
    (st : TurnState) (hops : Nat) (response : String) (tc : ToolCall)
    (hp : parse_tool_call response = some tc)
    (hh : hops < MAX_TOOL_HOPS_PER_TURN) :
    runLoop chat exec (fuel + 1) st hops response =
      (match chat (hops + 1) ((st.push_assistant response).push_tool_result tc.name
          (toolResultText (exec hops tc))).history with
       | Except.error e =>
          { state := (st.push_assistant response).push_tool_result tc.name
              (toolResultText (exec hops tc))
            result := Except.error e
            chatCalls := hops + 2
            toolExecs := hops + 1 }
       | Except.ok response2 =>
          runLoop chat exec fuel
            ((st.push_assistant response).push_tool_result tc.name
              (toolResultText (exec hops tc)))
            (hops + 1) response2) := by
  rw [runLoop]
  simp only [hp]
  rw [if_neg (by omega)]

/-! ## Claim theorems -/

/-- C2: for every buffer whose length exceeds `MAX_HISTORY_MESSAGES`,
trimming yields the system prefix followed by the suffix starting at
the first index of the window
`[max(len - (MAX_HISTORY_MESSAGES - system_len), system_len), len-1]`
whose kind is UserInput; if no UserInput index lies in the window, the
system prefix alone remains; buffers at or below the maximum are left
unchanged. -/
theorem trim_matches_window_spec (h : List Message) (k : List HistoryMessageKind)
    (s : Nat) :
    (h.length ≤ MAX_HISTORY_MESSAGES → trim_history_messages h k s = (h, k)) ∧
    (MAX_HISTORY_MESSAGES < h.length →
      (∀ a, (Nat.max (h.length - (MAX_HISTORY_MESSAGES - s)) s ≤ a ∧ a < h.length ∧
             k.getD a HistoryMessageKind.System = HistoryMessageKind.UserInput ∧
             ∀ j, Nat.max (h.length - (MAX_HISTORY_MESSAGES - s)) s ≤ j → j < a →
               k.getD j HistoryMessageKind.System ≠ HistoryMessageKind.UserInput) →
          trim_history_messages h k s = (h.take s ++ h.drop a, k.take s ++ k.drop a)) ∧
      ((∀ j, Nat.max (h.length - (MAX_HISTORY_MESSAGES - s)) s ≤ j → j < h.length →
          k.getD j HistoryMessageKind.System ≠ HistoryMessageKind.UserInput) →
        trim_history_messages h k s = (h.take s, k.take s))) := by
  refine ⟨fun hle => by simp [trim_history_messages, hle], fun hgt => ⟨?_, ?_⟩⟩
  · rintro a ⟨ha1, ha2, ha3, ha4⟩
    have hfind : trimAlignedStart h.length k s = some a :=
      trimAlignedStart_eq_some.mpr ⟨ha1, ha2, ha3, ha4⟩
    rw [trim_history_messages, if_neg (by omega), hfind]
  · intro hnone
    have hfind : trimAlignedStart h.length k s = none :=
      trimAlignedStart_eq_none.mpr hnone
    rw [trim_history_messages, if_neg (by omega), hfind]

/-- C3: after every push of a nonempty push sequence (each push appends
one message, then enforces capacity), the buffer holds at most
`MAX_HISTORY_MESSAGES` (= 40) entries. (The system prefixes the program
builds have length 1 or 2, hence far below the capacity.) -/
theorem pushAll_length_le (st : TurnState) (ops : List (Message × HistoryMessageKind))
    (hs : st.system_len ≤ MAX_HISTORY_MESSAGES) (hne : ops ≠ []) :
    (pushAll st ops).history.length ≤ MAX_HISTORY_MESSAGES := by
  induction ops generalizing st with
  | nil => exact absurd rfl hne
  | cons p rest ih =>
    have hstep : pushAll st (p :: rest) = pushAll (st.push_message p.1 p.2) rest := rfl
    cases rest with
    | nil =>
      rw [hstep]
      exact push_message_length_le st p.1 p.2 hs
    | cons q rest2 =>
      rw [hstep]
      exact ih (st.push_message p.1 p.2)
        (by rw [push_message_system_len]; exact hs) (by simp)

/-- C3 witness: one push onto the two-system-message state stays within
capacity. -/
theorem pushAll_length_le_witness :
    (pushAll testState [(Message.user "hi", HistoryMessageKind.UserInput)]).history.length
      ≤ MAX_HISTORY_MESSAGES :=
  pushAll_length_le testState [(Message.user "hi", HistoryMessageKind.UserInput)]
    (by decide) (by simp)

/-- C4: whenever trimming fires (the buffer exceeds
`MAX_HISTORY_MESSAGES`), the entry of the trimmed buffer right after
the system prefix — position `system_len` — if it exists, has kind
UserInput: a retained suffix never begins on a ToolResult or Assistant
entry. -/
theorem trimmed_first_entry_is_user_input (h : List Message)
    (k : List HistoryMessageKind) (s : Nat) (hlen : h.length = k.length)
    (hgt : MAX_HISTORY_MESSAGES < h.length) :
    ∀ kind, ((trim_history_messages h k s).2)[s]? = some kind →
      kind = HistoryMessageKind.UserInput := by
  intro kind hget
  rw [trim_history_messages, if_neg (by omega)] at hget
  cases hfind : trimAlignedStart h.length k s with
  | none =>
    rw [hfind] at hget
    rw [List.getElem?_eq_none (by simp only [List.length_take]; omega)] at hget
    exact Option.noConfusion hget
  | some a =>
    rw [hfind] at hget
    obtain ⟨ha1, ha2, ha3, -⟩ := trimAlignedStart_eq_some.mp hfind
    have hsa : s ≤ a := le_trans (Nat.le_max_right _ _) ha1
    have hsk : (k.take s).length = s := by
      simp only [List.length_take]
      omega
    rw [List.getElem?_append_right (by omega), hsk, Nat.sub_self,
      List.getElem?_drop, Nat.add_zero] at hget
    have hak : a < k.length := by omega
    rw [List.getElem?_eq_getElem hak] at hget
    have hgetD : k.getD a HistoryMessageKind.System = k[a] := by
      simp [List.getD_eq_getElem?_getD, List.getElem?_eq_getElem hak]
    injection hget with hget
    rw [← hget, ← hgetD]
    exact ha3

/-- C5: starting from construction with a list of system messages, after
any sequence of pushes, trims and resets, `system_len` still equals the
original system message count and the first `system_len` entries are
exactly the original system messages in order. -/
theorem system_prefix_stable (sys : List Message) (ops : List HistoryOp) :
    (applyOps (TurnState.from_system_messages sys) ops).system_len = sys.length ∧
    (applyOps (TurnState.from_system_messages sys) ops).history.take sys.length
      = sys := by
  have hinit : SysInv sys (TurnState.from_system_messages sys) :=
    ⟨rfl, Nat.le_refl _, List.take_length sys⟩
  have hall := hinit.ops ops
  exact ⟨hall.1, hall.2.2⟩

/-- C1 (amended): when the model response parses as a tool call and the
hops already executed reach `MAX_TOOL_HOPS_PER_TURN`, the engine pushes
only the fixed limit message as an Assistant entry (the tool-call
response itself is discarded, not pushed), returns the limit message,
and makes no further chat calls and no further tool executions. -/
theorem hop_limit_returns_limit_message (chat : ChatFn) (exec : ExecFn)
    (fuel : Nat) (st : TurnState) (hops : Nat) (response : String) (tc : ToolCall)
    (hp : parse_tool_call response = some tc)
    (hh : MAX_TOOL_HOPS_PER_TURN ≤ hops) :
    runLoop chat exec fuel st hops response =
      { state := st.push_assistant limitMessage
        result := Except.ok limitMessage
        chatCalls := hops + 1
        toolExecs := hops } :=
  runLoop_limit_step chat exec fuel st hops response tc hp hh

/-- C1 witness: the limit step at a concrete state and response. -/
theorem hop_limit_returns_limit_message_witness :
    runLoop threeEnvelopeChat okExec 3 testState 2 envelopeC =
      { state := testState.push_assistant limitMessage
        result := Except.ok limitMessage
        chatCalls := 3
        toolExecs := 2 } :=
  hop_limit_returns_limit_message threeEnvelopeChat okExec 3 testState 2 envelopeC
    { name := "tool.c" } (by rfl) (by decide)

/-- C1 counterexample: with three distinct tool-call envelopes the claim
fails — the third envelope (the response seen at `hop_count = 2`) is
never pushed as an Assistant entry. The full final history is listed,
so no trimming could have removed it (8 entries ≤ 40). -/
theorem hop_limit_pushes_response_counterexample :
    run_turn_with testState "go" threeEnvelopeChat okExec =
      { state :=
          { history :=
              [Message.system "sys", Message.system "tools", Message.user "go",
               Message.assistant envelopeA,
               Message.user "Tool \x27tool.a\x27 result: out",
               Message.assistant envelopeB,
               Message.user "Tool \x27tool.b\x27 result: out",
               Message.assistant limitMessage]
            history_kinds :=
              [HistoryMessageKind.System, HistoryMessageKind.System,
               HistoryMessageKind.UserInput, HistoryMessageKind.Assistant,
               HistoryMessageKind.ToolResult, HistoryMessageKind.Assistant,
               HistoryMessageKind.ToolResult, HistoryMessageKind.Assistant]
            system_len := 2 }
        result := Except.ok limitMessage
        chatCalls := 3
        toolExecs := 2 } ∧
    Message.assistant envelopeC ∉
      (run_turn_with testState "go" threeEnvelopeChat okExec).state.history := by
  constructor
  · decide
  · decide

/-- C2 witness: a 41-entry all-UserInput buffer with a 2-entry system
prefix trims to the prefix plus the suffix from index 3. -/
theorem trim_matches_window_spec_witness :
    trim_history_messages (List.replicate 41 (Message.user "x"))
        (List.replicate 41 HistoryMessageKind.UserInput) 2 =
      ((List.replicate 41 (Message.user "x")).take 2 ++
         (List.replicate 41 (Message.user "x")).drop 3,
       (List.replicate 41 HistoryMessageKind.UserInput).take 2 ++
         (List.replicate 41 HistoryMessageKind.UserInput).drop 3) :=
  ((trim_matches_window_spec (List.replicate 41 (Message.user "x"))
      (List.replicate 41 HistoryMessageKind.UserInput) 2).2 (by decide)).1 3
    ⟨by decide, by decide, by decide, fun j hj1 hj2 => by
      simp [List.length_replicate, MAX_HISTORY_MESSAGES] at hj1
      omega⟩

/-- C4 witness: the trimmed buffer of the C2 witness has a UserInput
entry right after the system prefix. -/
theorem trimmed_first_entry_is_user_input_witness :
    ((trim_history_messages (List.replicate 41 (Message.user "x"))
        (List.replicate 41 HistoryMessageKind.UserInput) 2).2)[2]? =
      some HistoryMessageKind.UserInput ∧
    HistoryMessageKind.UserInput = HistoryMessageKind.UserInput :=
  ⟨by decide,
   trimmed_first_entry_is_user_input (List.replicate 41 (Message.user "x"))
     (List.replicate 41 HistoryMessageKind.UserInput) 2 (by decide) (by decide)
     HistoryMessageKind.UserInput (by decide)⟩

/-- C6: `parse_tool_call` succeeds exactly when the entire trimmed text
is a JSON object with the single key `tool_call` holding an object with
the single key `name` whose string value is non-empty after trimming;
on every other input it returns no tool call and the engine treats the
text as an ordinary assistant reply (pushed as Assistant and returned
as the turn's successful result). -/
theorem parse_tool_call_spec (text : String) :
    ((parse_tool_call text).isSome = true ↔ toolCallShape text) ∧
    (parse_tool_call text = none →
      ∀ (chat : ChatFn) (exec : ExecFn) (fuel : Nat) (st : TurnState) (hops : Nat),
        runLoop chat exec fuel st hops text =
          { state := st.push_assistant text
            result := Except.ok text
            chatCalls := hops + 1
            toolExecs := hops }) := by
  refine ⟨parse_tool_call_isSome_iff text, fun hnone chat exec fuel st hops => ?_⟩
  exact runLoop_no_call_step chat exec fuel st hops text hnone

/-- C6 witness: prose embedded around an envelope is not a tool call and
ends the turn as a plain reply. -/
theorem parse_tool_call_spec_witness :
    runLoop (fun _ _ => Except.error "unused") (fun _ _ => Except.error "unused") 3
        testState 0 "Let me check.\n\x7b\"tool_call\":\x7b\"name\":\"time.now\"\x7d\x7d" =
      { state := testState.push_assistant
          "Let me check.\n\x7b\"tool_call\":\x7b\"name\":\"time.now\"\x7d\x7d"
        result := Except.ok "Let me check.\n\x7b\"tool_call\":\x7b\"name\":\"time.now\"\x7d\x7d"
        chatCalls := 1
        toolExecs := 0 } :=
  (parse_tool_call_spec "Let me check.\n\x7b\"tool_call\":\x7b\"name\":\"time.now\"\x7d\x7d").2
    (by rfl) (fun _ _ => Except.error "unused") (fun _ _ => Except.error "unused") 3
    testState 0

/-- C7: a tool failure with message `m` does not fail the turn: the text
`ERROR: <m>` is embedded in the message `Tool \x27<name>\x27 result: ERROR: <m>`,
pushed with role User and kind ToolResult, and the engine proceeds to
the next chat call exactly as on a tool success. -/
theorem tool_failure_not_fatal (chat : ChatFn) (exec : ExecFn) (fuel : Nat)
    (st : TurnState) (hops : Nat) (response : String) (tc : ToolCall) (m : String)
    (hp : parse_tool_call response = some tc)
    (hh : hops < MAX_TOOL_HOPS_PER_TURN)
    (he : exec hops tc = Except.error m) :
    runLoop chat exec (fuel + 1) st hops response =
      (match chat (hops + 1) ((st.push_assistant response).push_message
          (Message.user ("Tool \x27" ++ tc.name ++ "\x27 result: ERROR: " ++ m))
          HistoryMessageKind.ToolResult).history with
       | Except.error e =>
          { state := (st.push_assistant response).push_message
              (Message.user ("Tool \x27" ++ tc.name ++ "\x27 result: ERROR: " ++ m))
              HistoryMessageKind.ToolResult
            result := Except.error e
            chatCalls := hops + 2
            toolExecs := hops + 1 }
       | Except.ok response2 =>
          runLoop chat exec fuel
            ((st.push_assistant response).push_message
              (Message.user ("Tool \x27" ++ tc.name ++ "\x27 result: ERROR: " ++ m))
              HistoryMessageKind.ToolResult)
            (hops + 1) response2) := by
  have hstr : format_tool_result_user_message tc.name ("ERROR: " ++ m) =
      "Tool \x27" ++ tc.name ++ "\x27 result: ERROR: " ++ m := by
    unfold format_tool_result_user_message
    rw [← String.append_assoc,
      String.append_assoc ("Tool \x27" ++ tc.name) "\x27 result: " "ERROR: "]
    rfl
  have hstep := runLoop_hop_step chat exec fuel st hops response tc hp hh
  rw [he] at hstep
  simp only [TurnState.push_tool_result, toolResultText, hstr] at hstep
  exact hstep

/-- C7 witness: a failing executor at a concrete hop. -/
theorem tool_failure_not_fatal_witness :
    runLoop threeEnvelopeChat (fun _ _ => Except.error "boom") (1 + 1) testState 0
        envelopeA =
      runLoop threeEnvelopeChat (fun _ _ => Except.error "boom") 1
        ((testState.push_assistant envelopeA).push_message
          (Message.user ("Tool \x27" ++ "tool.a" ++ "\x27 result: ERROR: " ++ "boom"))
          HistoryMessageKind.ToolResult)
        1 envelopeB :=
  tool_failure_not_fatal threeEnvelopeChat (fun _ _ => Except.error "boom") 1
    testState 0 envelopeA { name := "tool.a" } "boom" (by rfl) (by decide) (by rfl)

/-- C8: a failing chat call is returned as the turn's error and the
history afterwards is exactly the messages pushed before the failing
call — nothing is appended for the failed call itself. The first
conjunct covers the initial chat call (only the user input was pushed);
the second covers the follow-up call after a hop (the hop's Assistant
and ToolResult pushes are retained, nothing more). -/
theorem chat_failure_aborts_turn (st : TurnState) (u : String) (chat : ChatFn)
    (exec : ExecFn) (e : String) :
    (chat 0 (st.push_user_input u).history = Except.error e →
      run_turn_with st u chat exec =
        { state := st.push_user_input u
          result := Except.error e
          chatCalls := 1
          toolExecs := 0 }) ∧
    (∀ fuel hops response tc,
      parse_tool_call response = some tc →
      hops < MAX_TOOL_HOPS_PER_TURN →
      chat (hops + 1) ((st.push_assistant response).push_tool_result tc.name
          (toolResultText (exec hops tc))).history = Except.error e →
      runLoop chat exec (fuel + 1) st hops response =
        { state := (st.push_assistant response).push_tool_result tc.name
            (toolResultText (exec hops tc))
          result := Except.error e
          chatCalls := hops + 2
          toolExecs := hops + 1 }) := by
  constructor
  · intro hchat
    simp only [run_turn_with, hchat]
  · intro fuel hops response tc hp hh hchat
    rw [runLoop_hop_step chat exec fuel st hops response tc hp hh, hchat]

/-- C8 witness: an always-failing chat backend fails the turn with only
the user input pushed. -/
theorem chat_failure_aborts_turn_witness :
    run_turn_with testState "hi" (fun _ _ => Except.error "down") okExec =
      { state := testState.push_user_input "hi"
        result := Except.error "down"
        chatCalls := 1
        toolExecs := 0 } :=
  (chat_failure_aborts_turn testState "hi" (fun _ _ => Except.error "down") okExec
    "down").1 (by rfl)

/-- C9: when the first three chat calls of a turn all return valid
tool-call envelopes (and `MAX_TOOL_HOPS_PER_TURN = 2`), the engine
makes exactly 3 chat calls, executes exactly 2 tools, and the returned
text contains "I stopped after 2 tool calls". -/
theorem three_tool_calls_hit_limit (st : TurnState) (u : String) (chat : ChatFn)
    (exec : ExecFn)
    (hc : ∀ k msgs, k < 3 →
      ∃ r, chat k msgs = Except.ok r ∧ (parse_tool_call r).isSome = true) :
    (run_turn_with st u chat exec).chatCalls = 3 ∧
    (run_turn_with st u chat exec).toolExecs = 2 ∧
    (run_turn_with st u chat exec).result = Except.ok limitMessage ∧
    ∃ rest, limitMessage = "I stopped after 2 tool calls" ++ rest := by
  obtain ⟨r0, hr0, hp0⟩ := hc 0 (st.push_user_input u).history (by omega)
  obtain ⟨tc0, htc0⟩ := Option.isSome_iff_exists.mp hp0
  have e0 : run_turn_with st u chat exec =
      runLoop chat exec 3 (st.push_user_input u) 0 r0 := by
    simp only [run_turn_with, hr0, MAX_TOOL_HOPS_PER_TURN, Nat.reduceAdd]
  obtain ⟨r1, hr1, hp1⟩ := hc 1
    (((st.push_user_input u).push_assistant r0).push_tool_result tc0.name
      (toolResultText (exec 0 tc0))).history (by omega)
  obtain ⟨tc1, htc1⟩ := Option.isSome_iff_exists.mp hp1
  have e1 := runLoop_hop_step chat exec 2 (st.push_user_input u) 0 r0 tc0
    htc0 (by decide)
  simp only [hr1, Nat.reduceAdd, Nat.zero_add] at e1
  obtain ⟨r2, hr2, hp2⟩ := hc 2
    (((((st.push_user_input u).push_assistant r0).push_tool_result tc0.name
        (toolResultText (exec 0 tc0))).push_assistant r1).push_tool_result tc1.name
      (toolResultText (exec 1 tc1))).history (by omega)
  obtain ⟨tc2, htc2⟩ := Option.isSome_iff_exists.mp hp2
  have e2 := runLoop_hop_step chat exec 1
    (((st.push_user_input u).push_assistant r0).push_tool_result tc0.name
      (toolResultText (exec 0 tc0))) 1 r1 tc1 htc1 (by decide)
  simp only [hr2, Nat.reduceAdd] at e2
  have e3 := runLoop_limit_step chat exec 1
    (((((st.push_user_input u).push_assistant r0).push_tool_result tc0.name
        (toolResultText (exec 0 tc0))).push_assistant r1).push_tool_result tc1.name
      (toolResultText (exec 1 tc1))) 2 r2 tc2 htc2 (by decide)
  simp only [Nat.reduceAdd] at e3
  have efinal : run_turn_with st u chat exec =
      { state := (((((st.push_user_input u).push_assistant r0).push_tool_result
            tc0.name (toolResultText (exec 0 tc0))).push_assistant r1).push_tool_result
            tc1.name (toolResultText (exec 1 tc1))).push_assistant limitMessage
        result := Except.ok limitMessage
        chatCalls := 3
        toolExecs := 2 } := by
    rw [e0, e1, e2, e3]
  rw [efinal]
  exact ⟨rfl, rfl, rfl, " in one turn. Please try a simpler request.", rfl⟩

/-- C9 witness: the three-envelope stub model. -/
theorem three_tool_calls_hit_limit_witness :
    (run_turn_with testState "go" threeEnvelopeChat okExec).chatCalls = 3 ∧
    (run_turn_with testState "go" threeEnvelopeChat okExec).toolExecs = 2 ∧
    (run_turn_with testState "go" threeEnvelopeChat okExec).result =
      Except.ok limitMessage ∧
    ∃ rest, limitMessage = "I stopped after 2 tool calls" ++ rest :=
  three_tool_calls_hit_limit testState "go" threeEnvelopeChat okExec
    (fun k _ hk => by
      rcases k with _ | k
      · exact ⟨envelopeA, rfl, by rfl⟩
      rcases k with _ | k
      · exact ⟨envelopeB, rfl, by rfl⟩
      · exact ⟨envelopeC, rfl, by rfl⟩)

/-- C10: the system prefix built at construction ends with the tool
usage-instructions message; it starts with the configured system prompt
exactly when that prompt is not whitespace-only; hence `system_len` is
1 when the prompt trims to empty (the prompt is silently omitted) and 2
otherwise. -/
theorem build_system_messages_spec (cfg : Config) :
    build_system_messages cfg =
      (if strTrim cfg.system_prompt = "" then [Message.system usage_instructions]
       else [Message.system cfg.system_prompt, Message.system usage_instructions]) ∧
    (build_system_messages cfg).getLast? = some (Message.system usage_instructions) ∧
    (TurnState.new cfg).system_len =
      (if strTrim cfg.system_prompt = "" then 1 else 2) := by
  by_cases hb : strTrim cfg.system_prompt = "" <;>
    simp [build_system_messages, TurnState.new, TurnState.from_system_messages, hb]


end Fizz
